import Mathlib

/-!
Verification of the Business_logbook dashboard's data-reconciliation and
metric-derivation pipeline (src/app.py, src/src/data_loader.py,
src/src/data_processor.py, src/src/utils.py).

Conventions of the embedding:
  * Python strings are `String` at record boundaries and `List Char` inside
    the parsing functions.
  * Monetary and duration values are exact rationals (`ℚ`).  The source uses
    IEEE doubles; every claim checked here involves values that are exact in
    both representations (at most two decimal places), where the two agree.
  * Fallible conversions return `Option`; the pandas idiom
    `errors='coerce'` followed by `fillna(0)` becomes `(… : Option ℚ).getD 0`.
  * A pandas DataFrame becomes a list of typed rows plus, where the code
    inspects `df.columns`, an explicit column list.
-/

set_option allowUnsafeReducibility true
attribute [semireducible] Rat.add Rat.mul Rat.inv Rat.sub Rat.ofScientific Rat.div

namespace Logbook

/-! ## Character helpers -/

/-- Decimal digit character, `digitChar d` is the character for digit `d`. -/
def digitChar (d : ℕ) : Char := Char.ofNat (48 + d)

/-- Numeric value of a decimal digit character. -/
def digitVal (c : Char) : ℕ := c.toNat - 48

/-- ASCII decimal digit test (what `str.isdigit` / numeric parsing accept). -/
def isDigitC (c : Char) : Bool := 48 ≤ c.toNat && c.toNat ≤ 57

/-- Whitespace in the sense of Python's `str.strip` and the regex class
`\s`: space, tab, newline, carriage return, vertical tab, form feed. -/
def isSpaceC (c : Char) : Bool :=
  c.toNat = 32 || c.toNat = 9 || c.toNat = 10 || c.toNat = 13 ||
  c.toNat = 11 || c.toNat = 12

/-- Python's `str.strip()`: drop whitespace from both ends. -/
def pstrip (l : List Char) : List Char :=
  ((l.dropWhile isSpaceC).reverse.dropWhile isSpaceC).reverse

/-- Parse a block of decimal digit characters, most significant first. -/
def parseNat (l : List Char) : ℕ :=
  l.foldl (fun a c => a * 10 + digitVal c) 0

/-- Power of ten, kept as a first-order recursion so that concrete values
reduce inside the kernel. -/
def pow10 : ℕ → ℕ
  | 0 => 1
  | n + 1 => 10 * pow10 n

/-- Integer power of ten as a rational, for float exponents. -/
def zpow10 : ℤ → ℚ
  | .ofNat n => (pow10 n : ℚ)
  | .negSucc n => 1 / (pow10 (n + 1) : ℚ)

/-! ## Python `float(...)` on a string

`convert_eu_to_number` ends in `float(clean_str)` inside a
`try`/`except ValueError`.  `pythonFloat` models `float` applied to a string:
optional surrounding whitespace, an optional sign, a decimal mantissa with an
optional fractional part, and an optional exponent.  (`float` also accepts
`inf`/`nan` spellings and digit-group underscores; no spreadsheet cell in the
claims exercises those, and they are not modelled.)  `none` models the
`ValueError` branch.  The same grammar serves for `pd.to_numeric` on a string
cell, which accepts the same decimal literals. -/

/-- Exponent tail of a float literal: empty, or `e`/`E`, optional sign, digits. -/
def parseExpTail : List Char → Option ℤ
  | [] => some 0
  | c :: rest =>
    if c = 'e' ∨ c = 'E' then
      match rest with
      | '+' :: ds => if ds ≠ [] ∧ ds.all isDigitC then some (parseNat ds) else none
      | '-' :: ds => if ds ≠ [] ∧ ds.all isDigitC then some (-(parseNat ds : ℤ)) else none
      | ds => if ds ≠ [] ∧ ds.all isDigitC then some (parseNat ds) else none
    else none

/-- Unsigned float literal: digits, optional `.` and more digits, optional
exponent; at least one digit must be present in the mantissa. -/
def parseUFloat (l : List Char) : Option ℚ :=
  let ipart := l.takeWhile isDigitC
  let r1 := l.dropWhile isDigitC
  if r1.head? = some '.' then
    let r2 := r1.tail
    let fpart := r2.takeWhile isDigitC
    let r3 := r2.dropWhile isDigitC
    if ipart.isEmpty && fpart.isEmpty then none
    else
      (parseExpTail r3).map
        (fun e => ((parseNat ipart : ℚ) + (parseNat fpart : ℚ) / (pow10 fpart.length : ℚ)) * zpow10 e)
  else
    if ipart.isEmpty then none
    else (parseExpTail r1).map (fun e => (parseNat ipart : ℚ) * zpow10 e)

/-- Python `float(s)` for a string `s`, `none` for `ValueError`. -/
def pythonFloat (l : List Char) : Option ℚ :=
  let s := pstrip l
  if s.head? = some '-' then (parseUFloat s.tail).map Neg.neg
  else if s.head? = some '+' then parseUFloat s.tail
  else parseUFloat s

/-! ## The monetary parser `convert_eu_to_number` (data_loader.py 31–60) -/

/-- A spreadsheet cell value as the Python code may receive it: a string,
Python's `None`/`NaN`, or an already-numeric value.  `convert_eu_to_number`
begins with `isinstance(amount_str, str)` and returns `0.0` for every
non-string input. -/
inductive CellValue where
  | vstr (s : String)
  | vnone
  | vnum (q : ℚ)
deriving DecidableEq, Repr

/-- String normalization inside `convert_eu_to_number`:
`amount_str.replace('€', '').strip()`, then, when a comma is present,
`.replace('.', '').replace(',', '.')`. -/
def euClean (s : String) : List Char :=
  let c1 := pstrip (s.data.filter (fun c => c != '€'))
  if c1.contains ',' then
    (c1.filter (fun c => c != '.')).map (fun c => if c = ',' then '.' else c)
  else c1

/-- The monetary parser `convert_eu_to_number` (data_loader.py 31–60): strip
the euro sign and whitespace, normalize the European separators, `float(...)`,
and `0.0` on any failure or non-string input. -/
def convert_eu_to_number : CellValue → ℚ
  | .vstr s => (pythonFloat (euClean s)).getD 0
  | .vnone => 0
  | .vnum _ => 0

/-! ## Compensation-cell normalization (data_loader.py 188–206)

For the "Compensi collaboratori" sheet the loader does NOT use
`convert_eu_to_number`.  Per column it runs
`replace('', np.nan)`, `replace(r'[€.,\s]', '', regex=True)`,
`pd.to_numeric(errors='coerce')`, `fillna(0)`: every euro sign, dot, comma
and whitespace character is deleted outright, the remaining text is parsed
as a number, and anything unparseable (including the empty cell) becomes 0. -/

/-- Value a compensation cell holds after `load_sheets_data`'s per-column
normalization. -/
def compCellValue (s : String) : ℚ :=
  if s.isEmpty then 0
  else
    let stripped := s.data.filter
      (fun c => !(c = '€' || c = '.' || c = ',' || isSpaceC c))
    (pythonFloat stripped).getD 0

/-! ## Calendar dates

`pd.to_datetime(..., format=..., errors='coerce')` validates the calendar
(month 1–12, day within the month, leap years), so the embedding carries a
plain year/month/day triple and the parsers enforce validity. -/

/-- A calendar date, as carried by the `Data` column after parsing. -/
structure Date where
  year : ℕ
  month : ℕ
  day : ℕ
deriving DecidableEq, Repr

/-- Chronological order on dates (what pandas `Timestamp` comparison does). -/
def dateLe (a b : Date) : Bool :=
  a.year < b.year ||
  (a.year = b.year && (a.month < b.month ||
    (a.month = b.month && a.day ≤ b.day)))

/-- Gregorian leap year. -/
def isLeap (y : ℕ) : Bool := y % 4 = 0 && (y % 100 ≠ 0 || y % 400 = 0)

/-- Days in a month of the Gregorian calendar. -/
def daysInMonth (y m : ℕ) : ℕ :=
  if m = 2 then (if isLeap y then 29 else 28)
  else if m = 4 ∨ m = 6 ∨ m = 9 ∨ m = 11 then 30
  else 31

/-- Split a character list on a separator character, keeping empty pieces,
like Python's `str.split(sep)`. -/
def splitCh (sep : Char) : List Char → List (List Char)
  | [] => [[]]
  | c :: cs =>
    let r := splitCh sep cs
    if c = sep then [] :: r
    else
      match r with
      | [] => [[c]]
      | g :: gs => (c :: g) :: gs

/-- A strptime-style numeric field: non-empty, all digits, limited width. -/
def numField (w : ℕ) (l : List Char) : Bool :=
  !l.isEmpty && l.all isDigitC && l.length ≤ w

/-- Build a date from day/month/year numerals, `none` when the triple is not
a real calendar date (strptime raises, `errors='coerce'` turns that into
NaT). -/
def mkDate (y m d : ℕ) : Option Date :=
  if 1 ≤ m ∧ m ≤ 12 ∧ 1 ≤ d ∧ d ≤ daysInMonth y m then some ⟨y, m, d⟩ else none

/-- Parse with a three-field date format: separator and field order given by
`perm`, which maps the three split pieces to (year, month, day). -/
def parse3 (sep : Char) (toYMD : List Char → List Char → List Char → Option (ℕ × ℕ × ℕ))
    (s : List Char) : Option Date :=
  match splitCh sep s with
  | [a, b, c] =>
    match toYMD a b c with
    | some (y, m, d) => mkDate y m d
    | none => none
  | _ => none

/-- Field order day/month/year, fields of width 2/2/4. -/
def ordDMY (a b c : List Char) : Option (ℕ × ℕ × ℕ) :=
  if numField 2 a && numField 2 b && numField 4 c then
    some (parseNat c, parseNat b, parseNat a)
  else none

/-- Field order year/month/day, fields of width 4/2/2. -/
def ordYMD (a b c : List Char) : Option (ℕ × ℕ × ℕ) :=
  if numField 4 a && numField 2 b && numField 2 c then
    some (parseNat a, parseNat b, parseNat c)
  else none

/-- Field order month/day/year, fields of width 2/2/4. -/
def ordMDY (a b c : List Char) : Option (ℕ × ℕ × ℕ) :=
  if numField 2 a && numField 2 b && numField 4 c then
    some (parseNat c, parseNat a, parseNat b)
  else none

/-- Format `%d/%m/%Y`, the primary format of `process_logbook`. -/
def parseDMYslash (s : List Char) : Option Date := parse3 '/' ordDMY s

/-- Format `%Y-%m-%d`, first fallback format. -/
def parseYMDdash (s : List Char) : Option Date := parse3 '-' ordYMD s

/-- Format `%d-%m-%Y`, second fallback format. -/
def parseDMYdash (s : List Char) : Option Date := parse3 '-' ordDMY s

/-- Format `%m/%d/%Y`, third fallback format. -/
def parseMDYslash (s : List Char) : Option Date := parse3 '/' ordMDY s

/-- Format `%Y/%m/%d`, fourth fallback format. -/
def parseYMDslash (s : List Char) : Option Date := parse3 '/' ordYMD s

/-- Candidate formats in the order the source lists them: the day-first
primary format, then the four fallback formats of the recovery loop. -/
def candidateFormats : List (List Char → Option Date) :=
  [parseDMYslash, parseYMDdash, parseDMYdash, parseMDYslash, parseYMDslash]

/-! ## Italian month names (app.py 63–82) -/

/-- Lookup table of `extract_month_from_date`: month number to Italian name
with capital initial. -/
def monthItMap : ℕ → Option String
  | 1 => some "Gennaio"
  | 2 => some "Febbraio"
  | 3 => some "Marzo"
  | 4 => some "Aprile"
  | 5 => some "Maggio"
  | 6 => some "Giugno"
  | 7 => some "Luglio"
  | 8 => some "Agosto"
  | 9 => some "Settembre"
  | 10 => some "Ottobre"
  | 11 => some "Novembre"
  | 12 => some "Dicembre"
  | _ => none

/-- Function `extract_month_from_date` (app.py 63–82): `None` for a missing
date, otherwise the Italian month name of the date's month (`month_map.get`
gives `None` outside 1–12). -/
def extract_month_from_date : Option Date → Option String
  | none => none
  | some d => monthItMap d.month

/-! ## The logbook table and `process_logbook` (data_processor.py 6–80)

A raw logbook row is a tuple of string cells as `get_all_values` delivers
them.  The sheets of this deployment carry all of the columns the code
requires except, possibly, `Mese`/`Giorno` (the two the code can backfill);
`hasMese` records whether the source sheet has a `Mese` column.  A cell of a
column that the sheet does have is a string and is never null, so
`processed_df['Mese'].isnull().any()` is true exactly when the column was
synthesized (`processed_df[col] = None`, line 58).  The backfilled `Mese`
and `Giorno` values come from locale-dependent `strftime`; no metric and no
claim reads them, so the embedding does not carry them. -/

/-- One raw row of the "Logbook" sheet. -/
structure RawRow where
  nome : String
  data : String
  mese : String
  reparto1 : String
  macroAtt : String
  micro : String
  cliente : String
  note : String
  minuti : String
deriving DecidableEq, Repr

/-- The raw "Logbook" sheet. -/
structure RawTable where
  rows : List RawRow
deriving DecidableEq, Repr

/-- A processed time entry (a row of `logbook_processed`).  `meseFormattato`
is the app-level join key added at app.py 137; it is `none` until that step
runs. -/
structure Entry where
  nome : String
  data : Option Date
  meseFormattato : Option String
  reparto1 : String
  macroAtt : String
  cliente : String
  minuti : ℚ
deriving DecidableEq, Repr

/-- Value of the `Data` column after `process_logbook`'s date conversion.
The primary parse is `pd.to_datetime(col, format='%d/%m/%Y',
errors='coerce')` (line 29).  The recovery loop for the other formats
(lines 32–46) re-parses the already-coerced column — every failed cell is
NaT by then, and `pd.to_datetime` maps NaT to NaT — and its assignment
writes through `processed_df.loc[~valid_dates][mask, 'Data']`, a
chained-indexing copy; the loop therefore never changes the column, and the
final value is the primary parse alone. -/
def processDate (s : String) : Option Date := parseDMYslash s.data

/-- Function `process_logbook` (data_processor.py 6–80): parse `Data`
(primary format only, see `processDate`), coerce `Minuti Impiegati` with
failures and blanks going to 0, and drop the rows whose date is NaT.  The
`Mese`/`Giorno` backfill (lines 67–75) touches only columns no claim and no
metric reads and is not carried. -/
def process_logbook (t : RawTable) : List Entry :=
  if t.rows.isEmpty then []
  else
    (t.rows.map (fun r =>
      { nome := r.nome
        data := processDate r.data
        meseFormattato := none
        reparto1 := r.reparto1
        macroAtt := r.macroAtt
        cliente := r.cliente
        minuti := (pythonFloat r.minuti.data).getD 0 : Entry })).filter
      (fun e => e.data.isSome)

/-- App lines 134–137: `process_logbook` followed by
`logbook_processed['MeseFormattato'] =
logbook_processed['Data'].apply(extract_month_from_date)`. -/
def appProcess (t : RawTable) : List Entry :=
  (process_logbook t).map
    (fun e => { e with meseFormattato := extract_month_from_date e.data })

/-! ## The filter engine `filter_data` (data_processor.py 103–160) -/

/-- Python's `if xs and len(xs) > 0`: a selector is active when it is not
`None` and not the empty list. -/
def optActive (o : Option (List String)) : Bool :=
  match o with
  | none => false
  | some l => !l.isEmpty

/-- Function `filter_data` (data_processor.py 103–160).  The date filter
keeps rows with a non-null `Data` in the closed interval
`[start_date, end_date]`; each selector, when active, keeps rows whose field
is a member of the given list; the micro-activity argument is accepted but never
applied (the source has no branch for it); the `Reparto`/`Reparto1` probe
always lands on `Reparto1` here because processed entries carry that column.
`start_date`/`end_date` are date values (always truthy in Python), so the
date filter always runs. -/
def filter_data (df : List Entry) (start_date end_date : Date)
    (collaborators departments macroActivities microActivities clients :
      Option (List String)) : List Entry :=
  if df.isEmpty then []
  else
    let f1 := df.filter (fun e =>
      match e.data with
      | some d => dateLe start_date d && dateLe d end_date
      | none => false)
    let f2 := if optActive collaborators then
        f1.filter (fun e => (collaborators.getD []).contains e.nome) else f1
    let f3 := if optActive departments then
        f2.filter (fun e => (departments.getD []).contains e.reparto1) else f2
    let f4 := if optActive macroActivities then
        f3.filter (fun e => (macroActivities.getD []).contains e.macroAtt) else f3
    let _ := microActivities
    let f5 := if optActive clients then
        f4.filter (fun e => (clients.getD []).contains e.cliente) else f4
    f5

/-! ## The revenue table "Clienti" (data_loader.py 174–182)

A revenue row has the client name, the `Actual` marker, and one
currency-formatted string cell per month column.  DataFrames are
rectangular: every row has a cell under every column of the table, so a
cell lookup under a column that `cols` contains always succeeds; `cellStr`
returns `""` only off that contract. -/

/-- One raw row of the "Clienti" sheet. -/
structure RawClientRow where
  cliente : String
  actual : String
  cells : List (String × String)
deriving DecidableEq, Repr

/-- A prepared revenue row (after the `Actual` column is dropped). -/
structure ClientRow where
  cliente : String
  cells : List (String × String)
deriving DecidableEq, Repr

/-- The prepared "Clienti" table: its month columns and its rows. -/
structure ClientTable where
  cols : List String
  rows : List ClientRow
deriving DecidableEq, Repr

/-- Cell of a revenue row under a month column. -/
def cellStr (cells : List (String × String)) (m : String) : String :=
  ((cells.lookup m).getD "")

/-- Preparation of the "Clienti" sheet in `load_sheets_data` (lines
178–182): when the sheet has an `Actual` column, keep exactly the rows
whose marker equals `"Actual"` and drop that column.  `cols` lists the
month columns of the sheet. -/
def prepareClienti (cols : List String) (hasActual : Bool)
    (rows : List RawClientRow) : ClientTable :=
  if hasActual then
    { cols := cols
      rows := (rows.filter (fun r => r.actual == "Actual")).map
        (fun r => { cliente := r.cliente, cells := r.cells }) }
  else
    { cols := cols
      rows := rows.map (fun r => { cliente := r.cliente, cells := r.cells }) }

/-! ## The compensation table "Compensi collaboratori" (data_loader.py 184–206) -/

/-- The prepared compensation table: collaborator-indexed rows of numeric
month cells (see `compCellValue` for how the numbers arise), plus the list
of month columns. -/
structure CompTable where
  cols : List String
  rows : List (String × List (String × ℚ))
deriving DecidableEq, Repr

/-- Cell of a compensation row under a month column (0 off the rectangular
contract, matching the `fillna(0)` of the load). -/
def cellQ (cells : List (String × ℚ)) (m : String) : ℚ :=
  (cells.lookup m).getD 0

/-! ## Client name resolution -/

/-!
Function `find_client_row` (app.py 44–61) returns `None` on an empty table;
else the subset of rows whose `Cliente` equals the name exactly; else the
subset whose `Cliente` contains the name case-insensitively (the source
uses `str.contains`, a regex search — the names exercised here contain no
regex metacharacter, so plain substring containment is the same test);
`None` when both are empty.  Case folding is ASCII `Char.toLower`, which
agrees with Python's on the ASCII names involved.
-/

/-- Containment of `pat` in `s` as a contiguous substring. -/
def startsList (pat s : List Char) : Bool :=
  match pat, s with
  | [], _ => true
  | _ :: _, [] => false
  | p :: ps, c :: cs => p == c && startsList ps cs

/-- Substring occurrence test. -/
def hasSub (pat s : List Char) : Bool :=
  match s with
  | [] => pat.isEmpty
  | _ :: cs => startsList pat s || hasSub pat cs

/-- Case-insensitive containment of `pat` in `s`. -/
def containsCI (pat s : String) : Bool :=
  hasSub (pat.data.map Char.toLower) (s.data.map Char.toLower)

/-- Function `find_client_row` (app.py 44–61). -/
def find_client_row (clienti : ClientTable) (client_name : String) :
    Option (List ClientRow) :=
  if clienti.rows.isEmpty then none
  else
    let exact := clienti.rows.filter (fun r => r.cliente == client_name)
    if !exact.isEmpty then some exact
    else
      let fuzzy := clienti.rows.filter (fun r => containsCI client_name r.cliente)
      if !fuzzy.isEmpty then some fuzzy else none

/-- The hardcoded fallback mapping table (data_loader.py 133–155), the
literal rows of the "Mappa" sheet substitute, as `(Cliente, Cliente Map)`
pairs. -/
def defaultMappingRows : List (String × String) :=
  [("ACOS MEDICA", "Acos Medica"),
   ("Bovo Garden Srl", "Flobflower"),
   ("Business Gates S.r.l.", "Business Gates"),
   ("CARL ZEISS VISION ITALIA S.P.A.", "Zeiss"),
   ("CAROVILLA PIERLUIGI (SONIT)", "Sonit"),
   ("Cisa S.p.a.", "Cisa"),
   ("CoLibrì System S.p.A.", "Colibrì"),
   ("CURCAPIL DI CARLUCCI DONATO SNC", "Curcapil"),
   ("Elettrocasa S.r.l.", "Elettrocasa"),
   ("FIDELIA - S.R.L.", "Casaviva"),
   ("FLO.MAR. S.R.L.S.", "Flomar"),
   ("Fratelli Bonella", "Fratelli Bonella"),
   ("HOMIT S.R.L.", "Divani Store"),
   ("NOWAVE", "Nowave"),
   ("PATRIZIO BRESEGHELLO", "Patrizio Breseghello"),
   ("POLONORD ADESTE", "Polonord"),
   ("SAIET", "Saiet"),
   ("SAN PIETRO LAB", "San Pietro Lab"),
   ("Sivec Srl", "Passione Fiori"),
   ("STILMAR DI MARISE RICCARDO (COCCOLE)", "Coccole"),
   ("TOMAINO SRL", "Tomaino")]

/-- App lines 129–132: `client_map = dict(zip(mapping_df['Cliente Map'],
mapping_df['Cliente']))` — keys are the `Cliente Map` column, values the
`Cliente` column.  The keys of the default table are distinct, so
first-match association lookup agrees with the Python dict. -/
def clientMapOf (mappingRows : List (String × String)) : List (String × String) :=
  mappingRows.map (fun p => (p.2, p.1))

/-- Lookup with default: Python's `client_map.get(cl, cl)`. -/
def mapGet (client_map : List (String × String)) (cl : String) : String :=
  (client_map.lookup cl).getD cl

/-! ## The metric block of `main` (app.py 162–286) -/

/-- Distinct values in first-occurrence order, like pandas `unique()`. -/
def uniqueFirst : List String → List String
  | [] => []
  | x :: xs =>
    let r := uniqueFirst xs
    if r.contains x then r else
      x :: r

/-- The period metrics the KPI block computes. -/
structure Metrics where
  total_hours : ℚ
  total_period_cost : ℚ
  total_company_hours : ℚ
  average_hourly_cost : ℚ
  filtered_hours_cost : ℚ
  total_revenue : ℚ
  margin : ℚ
  margin_percentage : ℚ
deriving DecidableEq, Repr

/-- Python's `selected_x if selected_x else None` on a selection list. -/
def optOf (l : List String) : Option (List String) :=
  if l.isEmpty then none else some l

/-- The metric pipeline of `main` (app.py 162–286), from the processed
logbook (with `MeseFormattato` present, see `appProcess`), the prepared
compensation and revenue tables, the client map, the chosen period and the
four sidebar selections (empty list = nothing selected):

  * `filtered_df` and the two auxiliary filter passes that determine the
    active clients and collaborators (lines 169–216);
  * `selected_months_for_calc`, the distinct `MeseFormattato` values of
    `filtered_df` (lines 222–224);
  * `total_hours` (line 230), the compensation sum over the relevant
    collaborators and touched months (lines 237–262) with its
    zero-denominator guard, `filtered_hours_cost` (line 265);
  * `total_revenue` through `client_map` and `find_client_row`
    (lines 268–282);
  * `margin` and the guarded `margin_percentage` (lines 284–286).

`uniqueFirst` stands for pandas `unique()`; the source sorts the active
client/collaborator lists, but they feed only membership tests and
commutative sums, which a permutation cannot change. -/
def computeMetrics (logbook : List Entry) (compensi : CompTable)
    (clienti : ClientTable) (client_map : List (String × String))
    (start_date end_date : Date)
    (selClients selDeps selMacro selCollabs : List String) : Metrics :=
  let date_filtered := filter_data logbook start_date end_date
    none none none none none
  let active_clients := uniqueFirst (date_filtered.map (fun e => e.cliente))
  let pre_filtered := filter_data logbook start_date end_date
    none (optOf selDeps) (optOf selMacro) none (optOf selClients)
  let active_collaborators := uniqueFirst (pre_filtered.map (fun e => e.nome))
  let filtered := filter_data logbook start_date end_date
    (optOf selCollabs) (optOf selDeps) (optOf selMacro) none (optOf selClients)
  let collaborators_for_costs :=
    if selCollabs.isEmpty then active_collaborators else selCollabs
  let clients_for_revenue :=
    if selClients.isEmpty then active_clients else selClients
  let months := uniqueFirst (filtered.filterMap (fun e => e.meseFormattato))
  let total_hours := ((filtered.map (fun e => e.minuti)).sum) / 60
  let costGuard := !collaborators_for_costs.isEmpty && !months.isEmpty &&
    !compensi.rows.isEmpty
  let relevant := compensi.rows.filter
    (fun r => collaborators_for_costs.contains r.1)
  let total_period_cost := if costGuard then
      (months.map (fun m =>
        if compensi.cols.contains m then
          ((relevant.map (fun r => cellQ r.2 m)).sum)
        else 0)).sum
    else 0
  let total_company_hours := if costGuard then
      (((filter_data logbook start_date end_date
          (some collaborators_for_costs) none none none none).map
        (fun e => e.minuti)).sum) / 60
    else 0
  let average_hourly_cost := if costGuard then
      (if 0 < total_company_hours then total_period_cost / total_company_hours
       else 0)
    else 0
  let filtered_hours_cost := total_hours * average_hourly_cost
  let revenueGuard := !months.isEmpty && !clients_for_revenue.isEmpty &&
    !clienti.rows.isEmpty
  let total_revenue := if revenueGuard then
      ((clients_for_revenue.map (fun cl => mapGet client_map cl)).map
        (fun name =>
          match find_client_row clienti name with
          | some rows =>
            (months.map (fun m =>
              if clienti.cols.contains m then
                ((rows.map (fun r =>
                  convert_eu_to_number (.vstr (cellStr r.cells m)))).sum)
              else 0)).sum
          | none => 0)).sum
    else 0
  let margin := total_revenue - filtered_hours_cost
  let margin_percentage :=
    if total_revenue ≠ 0 then margin / total_revenue * 100 else 0
  { total_hours := total_hours
    total_period_cost := total_period_cost
    total_company_hours := total_company_hours
    average_hourly_cost := average_hourly_cost
    filtered_hours_cost := filtered_hours_cost
    total_revenue := total_revenue
    margin := margin
    margin_percentage := margin_percentage }

/-! ## The currency formatter `format_currency` (utils.py 87–100)

The source renders `f"{value:,.2f} €"` — United States convention: comma as
thousands separator, point as decimal separator, two decimals — and then
swaps the separators by `.replace(",", "X").replace(".", ",").replace("X", ".")`.
The float format rounds to two decimals by round-half-to-even; the
embedding performs that rounding exactly on the rational (it coincides with
the source wherever the double is exact, which covers every two-decimal
value of the claims). -/

/-- Little-endian digit characters, with explicit fuel so that the
recursion is structural and concrete values reduce inside the kernel. -/
def revDigitsF : ℕ → ℕ → List Char
  | 0, _ => []
  | f + 1, n => if n = 0 then [] else digitChar (n % 10) :: revDigitsF f (n / 10)

/-- Little-endian digit characters of a natural number, empty for 0. -/
def revDigits (n : ℕ) : List Char := revDigitsF n n

/-- Decimal rendering of a natural number, most significant digit first. -/
def natToStr (n : ℕ) : List Char :=
  if n = 0 then ['0'] else (revDigits n).reverse

/-- Insert a comma before every trailing group of three digits, the
grouping of the `,` flag of Python's format mini-language. -/
def group3 : List Char → List Char
  | [] => []
  | c :: rest =>
    if rest.length % 3 = 0 ∧ rest ≠ [] then c :: ',' :: group3 rest
    else c :: group3 rest

/-- Round half to even, the rounding of float formatting, exact on ℚ. -/
def roundHalfEven (q : ℚ) : ℤ :=
  let f := ⌊q⌋
  let r := q - (f : ℚ)
  if r < 1 / 2 then f
  else if 1 / 2 < r then f + 1
  else if f % 2 = 0 then f else f + 1

/-- Rendering of `f"{q:,.2f}"`: sign, grouped integer part, point, two
fractional digits. -/
def usRender (q : ℚ) : List Char :=
  let cents := (roundHalfEven ((if q < 0 then -q else q) * 100)).toNat
  let ipart := cents / 100
  let fpart := cents % 100
  (if q < 0 then ['-'] else []) ++ group3 (natToStr ipart) ++
    '.' :: [digitChar (fpart / 10), digitChar (fpart % 10)]

/-- One `str.replace(a, b)` with single-character pattern and replacement. -/
def repCh (a b : Char) (l : List Char) : List Char :=
  l.map (fun c => if c = a then b else c)

/-- Joint effect of the three separator-swapping replaces on a string
without `X`: comma and point are exchanged, everything else is kept. -/
def swapSep (c : Char) : Char :=
  if c = ',' then '.' else if c = '.' then ',' else c

/-- Function `format_currency` (utils.py 87–100):
`f"{value:,.2f} €".replace(",", "X").replace(".", ",").replace("X", ".")`.
(The `except` branch that yields `"0,00 €"` is unreachable for a numeric
argument: formatting a number does not raise.) -/
def format_currency (q : ℚ) : List Char :=
  repCh 'X' '.' (repCh '.' ',' (repCh ',' 'X' (usRender q ++ [' ', '€'])))

/-! ## Concrete scenario data -/

/-- The single time entry of the specification's worked scenario, as
`appProcess` produces it from a raw row with `Data` `05/03/2024` and
`Minuti Impiegati` `120`. -/
def scnEntry : Entry :=
  { nome := "A"
    data := some ⟨2024, 3, 5⟩
    meseFormattato := some "Marzo"
    reparto1 := "Dev"
    macroAtt := "M"
    cliente := "X"
    minuti := 120 }

/-- Compensation table of the worked scenario: collaborator `A` is paid 300
for `Marzo`. -/
def scnComp : CompTable := { cols := ["Marzo"], rows := [("A", [("Marzo", 300)])] }

/-- Revenue table of the worked scenario: client `X` has the string cell
`€ 1.000,00` under `Marzo`, and the row is marked `Actual`. -/
def scnClienti : ClientTable :=
  prepareClienti ["Marzo"] true
    [{ cliente := "X", actual := "Actual", cells := [("Marzo", "€ 1.000,00")] }]

/-- Revenue table of the client-mapping scenario: canonical rows
`Acos Medica` and `Zeiss`, both marked `Actual`. -/
def acosClienti : ClientTable :=
  prepareClienti ["Marzo"] true
    [{ cliente := "Acos Medica", actual := "Actual", cells := [("Marzo", "€ 2.000,00")] },
     { cliente := "Zeiss", actual := "Actual", cells := [("Marzo", "€ 500,00")] }]

/-- A time entry whose logbook client label is the alias `ACOS MEDICA`. -/
def acosEntry : Entry :=
  { nome := "B"
    data := some ⟨2024, 3, 10⟩
    meseFormattato := some "Marzo"
    reparto1 := "Dev"
    macroAtt := "M"
    cliente := "ACOS MEDICA"
    minuti := 60 }

/-- Raw logbook table whose one row has a date valid only under the first
fallback format `%Y-%m-%d`. -/
def isoDateTable : RawTable :=
  { rows := [{ nome := "A"
               data := "2024-03-05"
               mese := ""
               reparto1 := "Dev"
               macroAtt := "M"
               micro := ""
               cliente := "X"
               note := ""
               minuti := "120" }] }

/-- Raw table for the C5 witness: the raw `Mese` cell says `luglio`, the
date says March. -/
def mismatchedMeseTable : RawTable :=
  { rows := [{ nome := "A"
               data := "05/03/2024"
               mese := "luglio"
               reparto1 := "Dev"
               macroAtt := "M"
               micro := ""
               cliente := "X"
               note := ""
               minuti := "120" }] }

/-- Raw logbook table whose one row has the duration cell `-30`. -/
def negativeMinutesTable : RawTable :=
  { rows := [{ nome := "A"
               data := "05/03/2024"
               mese := ""
               reparto1 := "Dev"
               macroAtt := "M"
               micro := ""
               cliente := "X"
               note := ""
               minuti := "-30" }] }

/-- Raw table for the C6 witness: a numeric cell, a non-numeric cell and a
blank cell, none negative. -/
def benignMinutesTable : RawTable :=
  { rows := [{ nome := "A", data := "05/03/2024", mese := "", reparto1 := "Dev",
               macroAtt := "M", micro := "", cliente := "X", note := "", minuti := "120" },
             { nome := "B", data := "06/03/2024", mese := "", reparto1 := "Dev",
               macroAtt := "M", micro := "", cliente := "X", note := "", minuti := "abc" },
             { nome := "C", data := "07/03/2024", mese := "", reparto1 := "Dev",
               macroAtt := "M", micro := "", cliente := "X", note := "", minuti := "" }] }

/-! # Claims -/

/-- C1.  For the single-entry scenario — one time entry with collaborator
`A`, date 2024-03-05, 120 minutes, client `X`; compensation table giving
`A` 300 for `Marzo`; revenue table giving `X` the string `€ 1.000,00` for
`Marzo`, marked actual; no narrowing filters beyond a period containing the
date — the metric pipeline computes total_hours = 2, total_company_hours =
2, average_hourly_cost = 150, filtered_hours_cost = 300, total_revenue =
1000, margin = 700 and margin_percentage = 70. -/
theorem single_entry_scenario_metrics :
    computeMetrics [scnEntry] scnComp scnClienti
      (clientMapOf defaultMappingRows) ⟨2024, 3, 1⟩ ⟨2024, 3, 31⟩ [] [] [] [] =
    { total_hours := 2
      total_period_cost := 300
      total_company_hours := 2
      average_hourly_cost := 150
      filtered_hours_cost := 300
      total_revenue := 1000
      margin := 700
      margin_percentage := 70 } := by decide

/-- C2.  With no explicit mapping source supplied — the hardcoded default
mapping table in force — a logbook client labeled `ACOS MEDICA` resolves,
for revenue computation, to the revenue row named `Acos Medica`: that row
is the one `find_client_row` returns after the alias translation (the
default dict, keyed by the `Cliente Map` column, leaves `ACOS MEDICA`
unchanged, and the case-insensitive containment fallback selects the row),
and exactly that row's `Marzo` amount of 2000 — not the 500 of the
unrelated `Zeiss` row — is summed into `total_revenue`. -/
theorem acos_medica_resolution :
    mapGet (clientMapOf defaultMappingRows) "ACOS MEDICA" = "ACOS MEDICA" ∧
    find_client_row acosClienti
      (mapGet (clientMapOf defaultMappingRows) "ACOS MEDICA") =
      some [{ cliente := "Acos Medica", cells := [("Marzo", "€ 2.000,00")] }] ∧
    (computeMetrics [acosEntry] { cols := ["Marzo"], rows := [] } acosClienti
      (clientMapOf defaultMappingRows) ⟨2024, 3, 1⟩ ⟨2024, 3, 31⟩
      [] [] [] []).total_revenue = 2000 := by decide

/-- C4.  A compensation cell is normalized by deleting every `€`, `.`, `,`
and whitespace character and then reading the remaining digits, so the
European-formatted `550,00` is stored as 55000 — the digit concatenation,
one hundred times the nominal value — and not as the 550 that the monetary
parser `convert_eu_to_number` (which compensation loading does not use)
would produce. -/
theorem compensation_cell_digit_concatenation :
    compCellValue "550,00" = 55000 ∧
    convert_eu_to_number (.vstr "550,00") = 550 ∧
    compCellValue "550,00" = 100 * convert_eu_to_number (.vstr "550,00") ∧
    compCellValue "550,00" ≠ convert_eu_to_number (.vstr "550,00") := by decide

/-- C7.  The monetary parser is total and never raises:
`€ 1.234,56` parses to 1234.56, the empty string, `None` and `bad` all give
0, every non-string input gives 0, and every string whose normalized form
still fails `float` gives 0. -/
theorem parse_currency_total_and_values :
    convert_eu_to_number (.vstr "€ 1.234,56") = 1234.56 ∧
    convert_eu_to_number (.vstr "") = 0 ∧
    convert_eu_to_number .vnone = 0 ∧
    convert_eu_to_number (.vstr "bad") = 0 ∧
    (∀ q : ℚ, convert_eu_to_number (.vnum q) = 0) ∧
    (∀ s : String, pythonFloat (euClean s) = none →
      convert_eu_to_number (.vstr s) = 0) := by
  refine ⟨by decide, by decide, rfl, by decide, fun q => rfl, fun s h => ?_⟩
  simp [convert_eu_to_number, h]

/-- Witness for C7 at the failing string `xyz` and the numeric input 7. -/
theorem parse_currency_total_and_values_witness :
    convert_eu_to_number (.vnum 7) = 0 ∧
    pythonFloat (euClean "xyz") = none ∧
    convert_eu_to_number (.vstr "xyz") = 0 :=
  ⟨parse_currency_total_and_values.2.2.2.2.1 7, by decide,
   parse_currency_total_and_values.2.2.2.2.2 "xyz" (by decide)⟩

/-- C8.  With all selectors omitted, `filter_data` returns exactly the rows
whose non-null date lies in the closed interval `[start_date, end_date]`;
and an empty selector list in any one dimension — whatever the other four
selectors are — behaves exactly like omitting that selector (pass-through),
not like "match nothing". -/
theorem filter_data_no_selectors (df : List Entry) (sd ed : Date) :
    filter_data df sd ed none none none none none =
      df.filter (fun e =>
        match e.data with
        | some d => dateLe sd d && dateLe d ed
        | none => false) ∧
    filter_data df sd ed (some []) (some []) (some []) (some []) (some []) =
      filter_data df sd ed none none none none none ∧
    (∀ collaborators departments macroActivities microActivities clients :
        Option (List String),
      filter_data df sd ed (some []) departments macroActivities
          microActivities clients =
        filter_data df sd ed none departments macroActivities
          microActivities clients ∧
      filter_data df sd ed collaborators (some []) macroActivities
          microActivities clients =
        filter_data df sd ed collaborators none macroActivities
          microActivities clients ∧
      filter_data df sd ed collaborators departments (some [])
          microActivities clients =
        filter_data df sd ed collaborators departments none
          microActivities clients ∧
      filter_data df sd ed collaborators departments macroActivities
          (some []) clients =
        filter_data df sd ed collaborators departments macroActivities
          none clients ∧
      filter_data df sd ed collaborators departments macroActivities
          microActivities (some []) =
        filter_data df sd ed collaborators departments macroActivities
          microActivities none) ∧
    ∀ e : Entry, e ∈ filter_data df sd ed none none none none none ↔
      e ∈ df ∧ ∃ d : Date, e.data = some d ∧
        dateLe sd d = true ∧ dateLe d ed = true := by
  refine ⟨?_, ?_, ?_, ?_⟩
  · cases df <;> simp [filter_data, optActive]
  · cases df <;> simp [filter_data, optActive]
  · intro collaborators departments macroActivities microActivities clients
    refine ⟨rfl, rfl, rfl, rfl, rfl⟩
  · intro e
    cases df with
    | nil => simp [filter_data]
    | cons x xs =>
      simp only [filter_data, optActive, List.isEmpty_cons, if_neg]
      simp only [Bool.false_eq_true, if_false, List.mem_filter]
      constructor
      · rintro ⟨h1, h2⟩
        refine ⟨h1, ?_⟩
        cases hd : e.data with
        | none => rw [hd] at h2; cases h2
        | some d =>
          rw [hd] at h2
          exact ⟨d, rfl, by simpa using h2⟩
      · rintro ⟨h1, d, hd, h3, h4⟩
        exact ⟨h1, by simp [hd, h3, h4]⟩

/-- C9.  The metric block applied to an entirely empty time-entry table —
whatever the other tables, the map, the period and the selections — yields
zero for every metric, and in particular both guarded ratios (average
hourly cost, margin percentage) are 0 rather than a division error. -/
theorem compute_metrics_empty_all_zero (compensi : CompTable)
    (clienti : ClientTable) (client_map : List (String × String))
    (sd ed : Date) (selClients selDeps selMacro selCollabs : List String) :
    computeMetrics [] compensi clienti client_map sd ed
      selClients selDeps selMacro selCollabs =
    { total_hours := 0
      total_period_cost := 0
      total_company_hours := 0
      average_hourly_cost := 0
      filtered_hours_cost := 0
      total_revenue := 0
      margin := 0
      margin_percentage := 0 } := by
  simp [computeMetrics, filter_data, uniqueFirst]

/-- C3.  Refutation at a concrete input: `2024-03-05` parses under the
first fallback candidate format `%Y-%m-%d` (and so under some candidate
format), yet `process_logbook` drops the row — the recovery loop re-parses
the already-coerced NaT column and assigns through a chained-indexing copy,
so rows valid only under a fallback format are excluded instead of kept. -/
theorem fallback_format_row_dropped :
    parseYMDdash "2024-03-05".data = some ⟨2024, 3, 5⟩ ∧
    candidateFormats.any (fun f => (f "2024-03-05".data).isSome) = true ∧
    processDate "2024-03-05" = none ∧
    process_logbook isoDateTable = [] := by decide

/-! ## Validity of parsed months (for C5) -/

/-- A date built by `mkDate` carries a month in 1–12. -/
theorem mkDate_month_bounds {y m dd : ℕ} {d : Date}
    (h : mkDate y m dd = some d) : 1 ≤ d.month ∧ d.month ≤ 12 := by
  unfold mkDate at h
  split at h
  · next hc =>
    cases h
    exact ⟨hc.1, hc.2.1⟩
  · cases h

/-- A date produced by a three-field parser carries a month in 1–12. -/
theorem parse3_month_bounds {sep : Char}
    {ord : List Char → List Char → List Char → Option (ℕ × ℕ × ℕ)}
    {s : List Char} {d : Date} (h : parse3 sep ord s = some d) :
    1 ≤ d.month ∧ d.month ≤ 12 := by
  unfold parse3 at h
  split at h
  · next a b c _ =>
    split at h
    · next y m dd _ => exact mkDate_month_bounds h
    · cases h
  · cases h

/-- The Italian month table is defined exactly on 1–12. -/
theorem monthItMap_isSome {m : ℕ} (h1 : 1 ≤ m) (h2 : m ≤ 12) :
    (monthItMap m).isSome = true := by
  interval_cases m <;> decide

/-- Membership in `process_logbook`'s output comes from a raw row: the
entry's fields are the processed fields of some source row, and its date
parsed. -/
theorem mem_process_logbook {t : RawTable} {e : Entry}
    (h : e ∈ process_logbook t) :
    ∃ r ∈ t.rows, processDate r.data = e.data ∧ e.data.isSome = true ∧
      e.minuti = (pythonFloat r.minuti.data).getD 0 := by
  unfold process_logbook at h
  split at h
  · cases h
  · rcases List.mem_filter.mp h with ⟨hmem, hsome⟩
    rcases List.mem_map.mp hmem with ⟨r, hr, rfl⟩
    exact ⟨r, hr, rfl, hsome, rfl⟩

/-- C5.  Every row of the processed logbook (after the app adds the
`MeseFormattato` join key) carries a month label that is rederived from the
row's parsed date — the raw `Mese` cell has no influence — and the label
agrees with the month of the date: it is exactly the Italian name of
`date.month`, which the parsers confine to 1–12. -/
theorem month_label_rederived_from_date (t : RawTable) (e : Entry)
    (h : e ∈ appProcess t) :
    e.meseFormattato = extract_month_from_date e.data ∧
    ∃ d : Date, e.data = some d ∧ e.meseFormattato = monthItMap d.month ∧
      (monthItMap d.month).isSome = true := by
  rcases List.mem_map.mp h with ⟨e0, he0, rfl⟩
  refine ⟨rfl, ?_⟩
  rcases mem_process_logbook he0 with ⟨r, _, hparse, hsome, _⟩
  rcases Option.isSome_iff_exists.mp hsome with ⟨d, hd⟩
  refine ⟨d, hd, ?_, ?_⟩
  · simp [hd, extract_month_from_date]
  · have hb : 1 ≤ d.month ∧ d.month ≤ 12 := by
      have : parseDMYslash r.data.data = some d := by
        unfold processDate at hparse
        rw [hparse, hd]
      exact parse3_month_bounds this
    exact monthItMap_isSome hb.1 hb.2

/-- Witness for C5: on a concrete row whose raw `Mese` cell (`luglio`)
contradicts its date (05/03/2024), the pipeline's join key is `Marzo`, the
month of the date. -/
theorem month_label_rederived_from_date_witness :
    (⟨"A", some ⟨2024, 3, 5⟩, some "Marzo", "Dev", "M", "X", 120⟩ : Entry) ∈
        appProcess mismatchedMeseTable ∧
      ((⟨"A", some ⟨2024, 3, 5⟩, some "Marzo", "Dev", "M", "X", 120⟩ : Entry).meseFormattato =
        extract_month_from_date
          (⟨"A", some ⟨2024, 3, 5⟩, some "Marzo", "Dev", "M", "X", 120⟩ : Entry).data ∧
      ∃ d : Date,
        (⟨"A", some ⟨2024, 3, 5⟩, some "Marzo", "Dev", "M", "X", 120⟩ : Entry).data = some d ∧
        (⟨"A", some ⟨2024, 3, 5⟩, some "Marzo", "Dev", "M", "X", 120⟩ : Entry).meseFormattato =
          monthItMap d.month ∧
        (monthItMap d.month).isSome = true) :=
  ⟨by decide,
   month_label_rederived_from_date mismatchedMeseTable _ (by decide)⟩

/-- C6, refutation at a concrete input: a raw duration cell `-30` is
numeric, passes `pd.to_numeric` unchanged, and the output row carries the
negative minutes value −30. -/
theorem minutes_negative_counterexample :
    (process_logbook negativeMinutesTable).map (fun e => e.minuti) =
      [(-30 : ℚ)] ∧ ((-30 : ℚ) < 0) := by decide

/-- C6 as amended.  Non-numeric or missing duration cells normalize to
zero (each output row's minutes is the coerced-with-default value of its
source cell), and minutes are non-negative provided no numeric source cell
is negative — the code passes numeric values through unchanged, so a
negative numeric cell survives into the output. -/
theorem minutes_nonneg_of_nonneg_cells (t : RawTable)
    (h : ∀ r ∈ t.rows, 0 ≤ (pythonFloat r.minuti.data).getD 0) :
    ∀ e ∈ process_logbook t,
      0 ≤ e.minuti ∧ ∃ r ∈ t.rows, e.minuti = (pythonFloat r.minuti.data).getD 0 := by
  intro e he
  rcases mem_process_logbook he with ⟨r, hr, _, _, hmin⟩
  exact ⟨hmin ▸ h r hr, r, hr, hmin⟩

/-- Witness for the amended C6 on a concrete table: all cells coerce
non-negatively (the non-numeric and blank ones to 0), and every output
row's minutes is non-negative and traceable to its cell. -/
theorem minutes_nonneg_of_nonneg_cells_witness :
    (∀ r ∈ benignMinutesTable.rows, 0 ≤ (pythonFloat r.minuti.data).getD 0) ∧
    ∀ e ∈ process_logbook benignMinutesTable,
      0 ≤ e.minuti ∧
      ∃ r ∈ benignMinutesTable.rows,
        e.minuti = (pythonFloat r.minuti.data).getD 0 :=
  ⟨by decide, minutes_nonneg_of_nonneg_cells benignMinutesTable (by decide)⟩

/-! ## Digit characters (for the C10 round trip) -/

/-- A digit character has scalar value between 48 and 57. -/
theorem toNat_of_isDigitC {c : Char} (h : isDigitC c = true) :
    48 ≤ c.toNat ∧ c.toNat ≤ 57 := by
  simpa [isDigitC] using h

/-- A digit character is none of the separator, currency, sign or space
characters the formatter and parser treat specially. -/
theorem isDigitC_ne {c : Char} (h : isDigitC c = true) :
    c ≠ ',' ∧ c ≠ '.' ∧ c ≠ '€' ∧ c ≠ 'X' ∧ c ≠ '-' ∧ c ≠ '+' ∧
      isSpaceC c = false := by
  obtain ⟨h1, h2⟩ := toNat_of_isDigitC h
  refine ⟨?_, ?_, ?_, ?_, ?_, ?_, ?_⟩
  · rintro rfl; exact absurd h (by decide)
  · rintro rfl; exact absurd h (by decide)
  · rintro rfl; exact absurd h (by decide)
  · rintro rfl; exact absurd h (by decide)
  · rintro rfl; exact absurd h (by decide)
  · rintro rfl; exact absurd h (by decide)
  · simp only [isSpaceC, Bool.or_eq_false_iff, decide_eq_false_iff_not]
    omega

/-- Digit characters are fixed by the separator swap. -/
theorem swapSep_digit {c : Char} (h : isDigitC c = true) : swapSep c = c := by
  obtain ⟨h1, h2, -⟩ := isDigitC_ne h
  simp [swapSep, h1, h2]

/-- The characters of `digitChar` at digits are digit characters. -/
theorem isDigitC_digitChar {d : ℕ} (h : d < 10) :
    isDigitC (digitChar d) = true := by
  interval_cases d <;> decide

/-- Reading back the character of a digit gives the digit. -/
theorem digitVal_digitChar {d : ℕ} (h : d < 10) :
    digitVal (digitChar d) = d := by
  interval_cases d <;> decide

/-! ## Decimal rendering and its inverse -/

/-- The fuel argument of `revDigitsF` is irrelevant once it covers the
value. -/
theorem revDigitsF_congr : ∀ n f g, n ≤ f → n ≤ g →
    revDigitsF f n = revDigitsF g n := by
  intro n
  induction n using Nat.strong_induction_on with
  | _ n ih =>
    intro f g hf hg
    cases f with
    | zero =>
      have hn : n = 0 := Nat.le_zero.mp hf
      subst hn
      cases g with
      | zero => rfl
      | succ g => simp [revDigitsF]
    | succ f =>
      cases g with
      | zero =>
        have hn : n = 0 := Nat.le_zero.mp hg
        subst hn
        simp [revDigitsF]
      | succ g =>
        by_cases hn : n = 0
        · subst hn; simp [revDigitsF]
        · have hlt : n / 10 < n := Nat.div_lt_self (Nat.pos_of_ne_zero hn) (by decide)
          simp only [revDigitsF, if_neg hn]
          rw [ih (n / 10) hlt f g (by omega) (by omega)]

/-- Unfolding equation of `revDigits` at a positive value. -/
theorem revDigits_eq {n : ℕ} (hn : n ≠ 0) :
    revDigits n = digitChar (n % 10) :: revDigits (n / 10) := by
  unfold revDigits
  cases n with
  | zero => exact absurd rfl hn
  | succ m =>
    simp only [revDigitsF, if_neg hn]
    have hlt : (m + 1) / 10 < m + 1 := Nat.div_lt_self (Nat.succ_pos m) (by decide)
    rw [revDigitsF_congr ((m + 1) / 10) m ((m + 1) / 10) (by omega) le_rfl]

/-- Folding the parse step over the rendered digits of `n` starting from
accumulator `a` gives `a` shifted past the digits plus `n`. -/
theorem foldl_parse_revDigits : ∀ n a : ℕ,
    List.foldl (fun a c => a * 10 + digitVal c) a (revDigits n).reverse =
      a * pow10 (revDigits n).length + n := by
  intro n
  induction n using Nat.strong_induction_on with
  | _ n ih =>
    intro a
    by_cases hn : n = 0
    · subst hn
      simp [revDigits, revDigitsF, pow10]
    · have hlt : n / 10 < n := Nat.div_lt_self (Nat.pos_of_ne_zero hn) (by decide)
      rw [revDigits_eq hn]
      simp only [List.reverse_cons, List.foldl_append, List.length_cons]
      rw [ih (n / 10) hlt a]
      simp only [List.foldl_cons, List.foldl_nil]
      rw [digitVal_digitChar (Nat.mod_lt n (by decide))]
      have hdm := Nat.div_add_mod n 10
      have hpow : pow10 ((revDigits (n / 10)).length + 1) =
          10 * pow10 (revDigits (n / 10)).length := rfl
      calc (a * pow10 (revDigits (n / 10)).length + n / 10) * 10 + n % 10
          = a * (10 * pow10 (revDigits (n / 10)).length) +
              (10 * (n / 10) + n % 10) := by ring
        _ = a * pow10 ((revDigits (n / 10)).length + 1) + n := by
            rw [hdm, hpow]

/-- Parsing the decimal rendering of `n` returns `n`. -/
theorem parseNat_natToStr (n : ℕ) : parseNat (natToStr n) = n := by
  unfold parseNat natToStr
  by_cases h : n = 0
  · subst h; decide
  · rw [if_neg h]
    have := foldl_parse_revDigits n 0
    rw [this, Nat.zero_mul, Nat.zero_add]

/-- Every character of `revDigits` is a digit character. -/
theorem mem_revDigits_digit : ∀ (n : ℕ) (c : Char), c ∈ revDigits n →
    isDigitC c = true := by
  intro n
  induction n using Nat.strong_induction_on with
  | _ n ih =>
    intro c hc
    by_cases hn : n = 0
    · subst hn; simp [revDigits, revDigitsF] at hc
    · rw [revDigits_eq hn] at hc
      rcases List.mem_cons.mp hc with h | h
      · subst h; exact isDigitC_digitChar (Nat.mod_lt n (by decide))
      · exact ih (n / 10) (Nat.div_lt_self (Nat.pos_of_ne_zero hn) (by decide)) c h

/-- Every character of `natToStr` is a digit character. -/
theorem mem_natToStr_digit {n : ℕ} {c : Char} (hc : c ∈ natToStr n) :
    isDigitC c = true := by
  unfold natToStr at hc
  by_cases h : n = 0
  · rw [if_pos h] at hc
    simp at hc
    subst hc; decide
  · rw [if_neg h] at hc
    exact mem_revDigits_digit n c (List.mem_reverse.mp hc)

/-- The decimal rendering is never empty. -/
theorem natToStr_ne_nil (n : ℕ) : natToStr n ≠ [] := by
  unfold natToStr
  by_cases h : n = 0
  · simp [h]
  · rw [if_neg h, revDigits_eq h]
    simp

/-- Parsing a two-character rendering of a value below 100. -/
theorem parseNat_two_digits {f : ℕ} (h : f < 100) :
    parseNat [digitChar (f / 10), digitChar (f % 10)] = f := by
  unfold parseNat
  simp only [List.foldl_cons, List.foldl_nil]
  rw [digitVal_digitChar (by omega), digitVal_digitChar (Nat.mod_lt f (by decide))]
  omega

/-! ## Grouping (for the C10 round trip) -/

/-- Removing the inserted commas undoes the grouping. -/
theorem group3_filter_comma : ∀ l : List Char, ',' ∉ l →
    (group3 l).filter (fun c => c != ',') = l := by
  intro l
  induction l with
  | nil => intro _; rfl
  | cons c rest ih =>
    intro h
    have hc : c ≠ ',' := fun e => h (e ▸ List.mem_cons_self c rest)
    have hr : ',' ∉ rest := fun e => h (List.mem_cons_of_mem c e)
    by_cases hcond : rest.length % 3 = 0 ∧ rest ≠ []
    · simp [group3, if_pos hcond, List.filter_cons, hc, ih hr]
    · simp [group3, if_neg hcond, List.filter_cons, hc, ih hr]

/-- Grouping only adds commas: every output character is an input
character or a comma. -/
theorem mem_group3 : ∀ (l : List Char) (c : Char), c ∈ group3 l →
    c ∈ l ∨ c = ',' := by
  intro l
  induction l with
  | nil => intro c hc; simp [group3] at hc
  | cons x rest ih =>
    intro c hc
    by_cases hcond : rest.length % 3 = 0 ∧ rest ≠ []
    · rw [group3, if_pos hcond] at hc
      rcases List.mem_cons.mp hc with h | h
      · exact Or.inl (h ▸ List.mem_cons_self x rest)
      · rcases List.mem_cons.mp h with h2 | h2
        · exact Or.inr h2
        · rcases ih c h2 with h3 | h3
          · exact Or.inl (List.mem_cons_of_mem x h3)
          · exact Or.inr h3
    · rw [group3, if_neg hcond] at hc
      rcases List.mem_cons.mp hc with h | h
      · exact Or.inl (h ▸ List.mem_cons_self x rest)
      · rcases ih c h with h3 | h3
        · exact Or.inl (List.mem_cons_of_mem x h3)
        · exact Or.inr h3

/-- Grouping keeps the leading character in place. -/
theorem group3_cons_head (x : Char) (xs : List Char) :
    ∃ t, group3 (x :: xs) = x :: t := by
  by_cases hcond : xs.length % 3 = 0 ∧ xs ≠ []
  · exact ⟨',' :: group3 xs, by rw [group3, if_pos hcond]⟩
  · exact ⟨group3 xs, by rw [group3, if_neg hcond]⟩

/-! ## Scanning helpers (for the C10 round trip) -/

/-- Lemma: `takeWhile` passes over a prefix it accepts wholly. -/
theorem takeWhile_append_all {p : Char → Bool} : ∀ l1 l2 : List Char,
    (∀ c ∈ l1, p c = true) →
    (l1 ++ l2).takeWhile p = l1 ++ l2.takeWhile p := by
  intro l1
  induction l1 with
  | nil => intro l2 _; rfl
  | cons x xs ih =>
    intro l2 h
    have hx : p x = true := h x (List.mem_cons_self x xs)
    simp [List.takeWhile_cons, hx,
      ih l2 (fun c hc => h c (List.mem_cons_of_mem x hc))]

/-- Lemma: `dropWhile` drops a prefix it accepts wholly. -/
theorem dropWhile_append_all {p : Char → Bool} : ∀ l1 l2 : List Char,
    (∀ c ∈ l1, p c = true) →
    (l1 ++ l2).dropWhile p = l2.dropWhile p := by
  intro l1
  induction l1 with
  | nil => intro l2 _; rfl
  | cons x xs ih =>
    intro l2 h
    have hx : p x = true := h x (List.mem_cons_self x xs)
    simp [List.dropWhile_cons, hx,
      ih l2 (fun c hc => h c (List.mem_cons_of_mem x hc))]

/-- Lemma: `dropWhile` with a predicate false on every element is the identity. -/
theorem dropWhile_all_false {p : Char → Bool} (l : List Char)
    (h : ∀ c ∈ l, p c = false) : l.dropWhile p = l := by
  cases l with
  | nil => rfl
  | cons x xs => simp [List.dropWhile_cons, h x (List.mem_cons_self x xs)]

/-- Stripping a string with no whitespace at all is the identity. -/
theorem pstrip_no_space {l : List Char}
    (h : ∀ c ∈ l, isSpaceC c = false) : pstrip l = l := by
  unfold pstrip
  rw [dropWhile_all_false l h,
    dropWhile_all_false _ (fun c hc => h c (List.mem_reverse.mp hc)),
    List.reverse_reverse]

/-- Stripping removes a single trailing blank from a non-empty
whitespace-free string. -/
theorem pstrip_append_space : ∀ l : List Char, l ≠ [] →
    (∀ c ∈ l, isSpaceC c = false) → pstrip (l ++ [' ']) = l := by
  intro l hl h
  obtain ⟨x, xs, rfl⟩ : ∃ x xs, l = x :: xs := by
    cases l with
    | nil => exact absurd rfl hl
    | cons a as => exact ⟨a, as, rfl⟩
  unfold pstrip
  have hx : isSpaceC x = false := h x (List.mem_cons_self x xs)
  rw [List.cons_append, List.dropWhile_cons, hx]
  simp only [Bool.false_eq_true, if_false]
  rw [show (x :: (xs ++ [' '])).reverse = ' ' :: (xs.reverse ++ [x]) by simp]
  rw [List.dropWhile_cons]
  simp only [show isSpaceC ' ' = true from rfl, if_true]
  rw [dropWhile_all_false (xs.reverse ++ [x]) ?side]
  case side =>
    intro c hc
    rcases List.mem_append.mp hc with h1 | h1
    · exact h c (List.mem_cons_of_mem x (List.mem_reverse.mp h1))
    · simp at h1; subst h1; exact hx
  simp

/-! ## The separator dance (for the C10 round trip) -/

/-- On a string without `X`, the three replaces of `format_currency`
compose to the separator swap. -/
theorem repCh_dance (l : List Char) (h : ∀ c ∈ l, c ≠ 'X') :
    repCh 'X' '.' (repCh '.' ',' (repCh ',' 'X' l)) = l.map swapSep := by
  unfold repCh
  rw [List.map_map, List.map_map]
  apply List.map_congr_left
  intro c hc
  have hcx : c ≠ 'X' := h c hc
  by_cases h1 : c = ','
  · subst h1; simp [swapSep]
  · by_cases h2 : c = '.'
    · subst h2; simp [swapSep]
    · simp [Function.comp, swapSep, h1, h2, hcx]

/-- Rounding a natural number is the identity. -/
theorem roundHalfEven_natCast (n : ℕ) : roundHalfEven (n : ℚ) = (n : ℤ) := by
  unfold roundHalfEven
  rw [Int.floor_natCast]
  simp

/-- Rendering `n / 100` (cents `n`): grouped integer digits, point, two
fractional digits. -/
theorem usRender_div100 (n : ℕ) :
    usRender ((n : ℚ) / 100) =
      group3 (natToStr (n / 100)) ++
        '.' :: [digitChar (n % 100 / 10), digitChar (n % 100 % 10)] := by
  unfold usRender
  have h0 : ¬ ((n : ℚ) / 100 < 0) := not_lt.mpr (by positivity)
  simp only [if_neg h0]
  rw [show ((n : ℚ) / 100) * 100 = (n : ℚ) by field_simp]
  rw [roundHalfEven_natCast]
  rw [Int.toNat_natCast]
  simp

/-- The separator dance on the rendered string of `n / 100`. -/
theorem format_currency_div100 (n : ℕ) :
    format_currency ((n : ℚ) / 100) =
      (group3 (natToStr (n / 100))).map swapSep ++
        ',' :: digitChar (n % 100 / 10) :: digitChar (n % 100 % 10) ::
          [' ', '€'] := by
  unfold format_currency
  rw [usRender_div100, repCh_dance]
  · simp only [List.map_append, List.map_cons, List.map_nil]
    rw [swapSep_digit (isDigitC_digitChar (show n % 100 / 10 < 10 by omega)),
      swapSep_digit (isDigitC_digitChar (show n % 100 % 10 < 10 by omega))]
    simp [swapSep]
  · intro c hc
    rcases List.mem_append.mp hc with h1 | h1
    · rcases List.mem_append.mp h1 with h2 | h2
      · rcases mem_group3 _ c h2 with h3 | h3
        · exact (isDigitC_ne (mem_natToStr_digit h3)).2.2.2.1
        · subst h3; decide
      · rcases List.mem_cons.mp h2 with h3 | h3
        · subst h3; decide
        · rcases List.mem_cons.mp h3 with h4 | h4
          · subst h4
            exact (isDigitC_ne (isDigitC_digitChar
              (show n % 100 / 10 < 10 by omega))).2.2.2.1
          · rcases List.mem_cons.mp h4 with h5 | h5
            · subst h5
              exact (isDigitC_ne (isDigitC_digitChar
                (show n % 100 % 10 < 10 by omega))).2.2.2.1
            · simp at h5
    · rcases List.mem_cons.mp h1 with h2 | h2
      · subst h2; decide
      · simp at h2; subst h2; decide

/-- Filtering the decimal point out of a swapped grouped string recovers
the comma-filtered original. -/
theorem filter_dot_map_swap : ∀ l : List Char,
    (∀ c ∈ l, isDigitC c = true ∨ c = ',') →
    (l.map swapSep).filter (fun c => c != '.') =
      l.filter (fun c => c != ',') := by
  intro l
  induction l with
  | nil => intro _; rfl
  | cons c rest ih =>
    intro h
    have hrest := fun c hc => h c (List.mem_cons_of_mem _ hc)
    rcases h c (List.mem_cons_self c rest) with hd | hd
    · obtain ⟨h1, h2, -⟩ := isDigitC_ne hd
      simp only [List.map_cons, swapSep_digit hd, List.filter_cons]
      rw [show (c != '.') = true from bne_iff_ne.mpr h2,
        show (c != ',') = true from bne_iff_ne.mpr h1]
      simp [ih hrest]
    · subst hd
      simp only [List.map_cons, List.filter_cons]
      rw [show swapSep ',' = '.' from rfl]
      simp [ih hrest]

/-- The normalization inside `convert_eu_to_number` undoes the formatter's
separators: cleaning the formatted string of `n / 100` leaves plain digits,
a decimal point and two fractional digits. -/
theorem euClean_format_div100 (n : ℕ) :
    euClean (String.mk (format_currency ((n : ℚ) / 100))) =
      natToStr (n / 100) ++
        '.' :: [digitChar (n % 100 / 10), digitChar (n % 100 % 10)] := by
  have hG : ∀ c ∈ group3 (natToStr (n / 100)), isDigitC c = true ∨ c = ',' :=
    fun c hc => (mem_group3 _ c hc).imp (fun h => mem_natToStr_digit h) id
  have hf1 : isDigitC (digitChar (n % 100 / 10)) = true :=
    isDigitC_digitChar (by omega)
  have hf2 : isDigitC (digitChar (n % 100 % 10)) = true :=
    isDigitC_digitChar (by omega)
  have hDG : ∀ c ∈ (group3 (natToStr (n / 100))).map swapSep,
      isDigitC c = true ∨ c = '.' := by
    intro c hc
    rcases List.mem_map.mp hc with ⟨c0, hc0, rfl⟩
    rcases hG c0 hc0 with h | h
    · exact Or.inl (by rw [swapSep_digit h]; exact h)
    · subst h; exact Or.inr rfl
  unfold euClean
  rw [show (String.mk (format_currency ((n : ℚ) / 100))).data =
    format_currency ((n : ℚ) / 100) from rfl]
  rw [format_currency_div100]
  rw [List.filter_append]
  rw [List.filter_eq_self.mpr (fun c hc => ?eur)]
  case eur =>
    apply bne_iff_ne.mpr
    rcases hDG c hc with h | h
    · exact (isDigitC_ne h).2.2.1
    · subst h; decide
  rw [show (',' :: digitChar (n % 100 / 10) :: digitChar (n % 100 % 10) ::
      [' ', '€']).filter (fun c => c != '€') =
      ',' :: digitChar (n % 100 / 10) :: digitChar (n % 100 % 10) :: [' '] by
    simp only [List.filter_cons, List.filter_nil]
    rw [show (',' != '€') = true from rfl,
      show (' ' != '€') = true from rfl,
      show ('€' != '€') = false from rfl,
      show (digitChar (n % 100 / 10) != '€') = true from
        bne_iff_ne.mpr (isDigitC_ne hf1).2.2.1,
      show (digitChar (n % 100 % 10) != '€') = true from
        bne_iff_ne.mpr (isDigitC_ne hf2).2.2.1]
    simp]
  rw [show (group3 (natToStr (n / 100))).map swapSep ++
      ',' :: digitChar (n % 100 / 10) :: digitChar (n % 100 % 10) :: [' '] =
      ((group3 (natToStr (n / 100))).map swapSep ++
        ',' :: digitChar (n % 100 / 10) :: [digitChar (n % 100 % 10)]) ++
        [' '] by simp]
  rw [pstrip_append_space _ (by simp) ?nospace]
  case nospace =>
    intro c hc
    rcases List.mem_append.mp hc with h1 | h1
    · rcases hDG c h1 with h | h
      · exact (isDigitC_ne h).2.2.2.2.2.2
      · subst h; decide
    · rcases List.mem_cons.mp h1 with h2 | h2
      · subst h2; decide
      · rcases List.mem_cons.mp h2 with h3 | h3
        · subst h3; exact (isDigitC_ne hf1).2.2.2.2.2.2
        · simp at h3; subst h3; exact (isDigitC_ne hf2).2.2.2.2.2.2
  rw [if_pos ?hascomma]
  case hascomma =>
    exact List.elem_eq_true_of_mem
      (List.mem_append.mpr (Or.inr (List.mem_cons_self _ _)))
  rw [List.filter_append, filter_dot_map_swap _ hG]
  rw [group3_filter_comma _ (fun hmem =>
    absurd (mem_natToStr_digit hmem) (by decide))]
  rw [show (',' :: digitChar (n % 100 / 10) :: [digitChar (n % 100 % 10)]).filter
      (fun c => c != '.') =
      ',' :: digitChar (n % 100 / 10) :: [digitChar (n % 100 % 10)] by
    simp only [List.filter_cons, List.filter_nil]
    rw [show (',' != '.') = true from rfl,
      show (digitChar (n % 100 / 10) != '.') = true from
        bne_iff_ne.mpr (isDigitC_ne hf1).2.1,
      show (digitChar (n % 100 % 10) != '.') = true from
        bne_iff_ne.mpr (isDigitC_ne hf2).2.1]
    simp]
  rw [List.map_append]
  rw [show (natToStr (n / 100)).map (fun c => if c = ',' then '.' else c) =
    natToStr (n / 100) from by
    rw [show natToStr (n / 100) =
      (natToStr (n / 100)).map id from (List.map_id _).symm]
    rw [List.map_map]
    apply List.map_congr_left
    intro c hc
    simp at hc
    simp [(isDigitC_ne (mem_natToStr_digit hc)).1]]
  simp [(isDigitC_ne hf1).1, (isDigitC_ne hf2).1]

/-- The float parser on digits, a point and two fractional digits. -/
theorem pythonFloat_digits_frac (a f : ℕ) (hf : f < 100) :
    pythonFloat (natToStr a ++
        '.' :: [digitChar (f / 10), digitChar (f % 10)]) =
      some ((a : ℚ) + (f : ℚ) / 100) := by
  have hf1 : isDigitC (digitChar (f / 10)) = true := isDigitC_digitChar (by omega)
  have hf2 : isDigitC (digitChar (f % 10)) = true := isDigitC_digitChar (by omega)
  have hall : ∀ c ∈ natToStr a, isDigitC c = true :=
    fun c hc => mem_natToStr_digit hc
  obtain ⟨x, xs, hx⟩ : ∃ x xs, natToStr a = x :: xs := by
    cases hh : natToStr a with
    | nil => exact absurd hh (natToStr_ne_nil a)
    | cons y ys => exact ⟨y, ys, rfl⟩
  have hxd : isDigitC x = true := hall x (hx ▸ List.mem_cons_self x xs)
  unfold pythonFloat
  rw [pstrip_no_space ?nosp]
  case nosp =>
    intro c hc
    rcases List.mem_append.mp hc with h1 | h1
    · exact (isDigitC_ne (hall c h1)).2.2.2.2.2.2
    · rcases List.mem_cons.mp h1 with h2 | h2
      · subst h2; decide
      · rcases List.mem_cons.mp h2 with h3 | h3
        · subst h3; exact (isDigitC_ne hf1).2.2.2.2.2.2
        · simp at h3; subst h3; exact (isDigitC_ne hf2).2.2.2.2.2.2
  rw [hx, List.cons_append]
  simp only [List.head?_cons, Option.some.injEq]
  rw [if_neg (isDigitC_ne hxd).2.2.2.2.1, if_neg (isDigitC_ne hxd).2.2.2.2.2.1]
  rw [← List.cons_append, ← hx]
  unfold parseUFloat
  rw [takeWhile_append_all _ _ hall, dropWhile_append_all _ _ hall]
  simp only [List.takeWhile_cons, List.dropWhile_cons,
    show isDigitC '.' = false from rfl, Bool.false_eq_true, if_false,
    List.append_nil, List.head?_cons, Option.some.injEq, if_pos rfl,
    List.tail_cons, hf1, hf2, if_true, List.takeWhile_nil, List.dropWhile_nil]
  rw [if_neg ?nonempty]
  case nonempty =>
    rw [show (natToStr a).isEmpty = false from by rw [hx]; rfl]
    simp
  rw [show parseExpTail [] = some 0 from rfl]
  simp only [Option.map_some']
  rw [parseNat_natToStr, parseNat_two_digits hf]
  rw [show zpow10 0 = 1 from by decide]
  rw [show [digitChar (f / 10), digitChar (f % 10)].length = 2 from rfl]
  rw [show (pow10 2 : ℚ) = 100 from by decide]
  rw [mul_one]

/-- C10.  `format_currency` renders 1234.5 as `1.234,50 €` — two decimals,
point as thousands separator, comma as decimal separator, trailing euro
sign — and for every representable positive two-decimal value `n / 100` the
monetary parser inverts the formatter exactly:
`parse_currency(format_currency(x)) = x`. -/
theorem parse_currency_format_currency_round_trip :
    String.mk (format_currency (1234.5 : ℚ)) = "1.234,50 €" ∧
    ∀ n : ℕ, 0 < n →
      convert_eu_to_number
          (.vstr (String.mk (format_currency ((n : ℚ) / 100)))) =
        (n : ℚ) / 100 := by
  constructor
  · decide
  · intro n _
    simp only [convert_eu_to_number]
    rw [euClean_format_div100]
    rw [show n % 100 / 10 = n % 100 / 10 from rfl]
    rw [pythonFloat_digits_frac (n / 100) (n % 100) (Nat.mod_lt n (by decide))]
    simp only [Option.getD_some]
    have h100 : (100 : ℚ) ≠ 0 := by norm_num
    field_simp
    norm_cast
    omega

/-- Witness for C10 at the two-decimal value 1234.56 (cents 123456). -/
theorem parse_currency_format_currency_round_trip_witness :
    0 < 123456 ∧
    convert_eu_to_number
        (.vstr (String.mk (format_currency (((123456 : ℕ) : ℚ) / 100)))) =
      ((123456 : ℕ) : ℚ) / 100 :=
  ⟨by decide,
   parse_currency_format_currency_round_trip.2 123456 (by decide)⟩

end Logbook
